import Mathlib

/-!
Verification of the task-board page component (src/src/app/page.js).

The component keeps three pieces of React state:
  tasks   : the ordered collection of task records (useState [])
  newTask : the pending text of the input control (useState '')
  nextId  : the id counter for the next added task (useState 1)

A useEffect hook hydrates the state once from the persistent slot:
  const savedTasks = JSON.parse(localStorage.getItem('tasks')) || [];
  setTasks(savedTasks);
  const maxId = savedTasks.reduce((max, task) => Math.max(max, task.id), 0);
  setNextId(maxId + 1);

addTask appends { id: nextId, title: newTask, description: '' } to the
collection, clears the input, increments the counter and writes the full
updated collection to the slot.  handleDelete filters the task whose id
matches out of the collection and writes the result to the slot.

The browser primitives (localStorage, JSON.parse, JSON.stringify) are not
repository code; they are modelled at the level of their observable
behaviour on this slot: the slot is either absent, holds text that
JSON.parse accepts (represented by the parsed value, using the platform
guarantee that JSON.stringify of an array of task records parses back to
the same array), or holds text that JSON.parse rejects (a thrown
SyntaxError, represented by Option.none).  Task ids are modelled as
natural numbers: every id the component ever assigns comes from the
counter, which starts at 1 and only increments.
-/

namespace TaskBoard

/-- A task record, as built by addTask and as stored in the slot. -/
structure Task where
  id : Nat
  title : String
  description : String
deriving DecidableEq

/-- A JavaScript value as it can come out of JSON.parse on this slot:
the falsy scalars, numbers, strings, or an array of task records. -/
inductive JsValue where
  | null : JsValue
  | bool (b : Bool) : JsValue
  | num (n : Int) : JsValue
  | str (s : String) : JsValue
  | taskArr (ts : List Task) : JsValue
deriving DecidableEq

/-- The persistent storage slot under the key used by the page.
wellFormed v stands for text that JSON.parse accepts with result v;
malformed stands for text that JSON.parse rejects by throwing. -/
inductive Stored where
  | absent : Stored
  | wellFormed (v : JsValue) : Stored
  | malformed : Stored
deriving DecidableEq

/-- JSON.parse(localStorage.getItem(key)).  getItem of an absent key
returns null, and JSON.parse coerces null to the text "null", which
parses to the null value; malformed text makes JSON.parse throw
(Option.none). -/
def jsonParseGetItem : Stored → Option JsValue
  | .absent => some .null
  | .wellFormed v => some v
  | .malformed => none

/-- The expression `parsed || []` followed by the uses of savedTasks as an
array: a falsy parsed value (null, false, 0, the empty string) is replaced
by the empty array; an array (always truthy, even when empty) is kept; a
truthy non-array value reaches savedTasks.reduce, which throws a TypeError
(Option.none). -/
def jsOrEmptyList : JsValue → Option (List Task)
  | .taskArr ts => some ts
  | .null => some []
  | .bool b => if b then none else some []
  | .num n => if n = 0 then some [] else none
  | .str s => if s = "" then some [] else none

/-- The three useState cells of the Home component. -/
structure HomeState where
  tasks : List Task
  newTask : String
  nextId : Nat
deriving DecidableEq

/-- The initial values of the three useState cells:
useState([]), useState(''), useState(1). -/
def initState : HomeState := { tasks := [], newTask := "", nextId := 1 }

/-- savedTasks.reduce((max, task) => Math.max(max, task.id), 0). -/
def reduceMaxId (savedTasks : List Task) : Nat :=
  savedTasks.foldl (fun mx task => Nat.max mx task.id) 0

/-- The hydration useEffect: parse the slot, default falsy results to the
empty array, set tasks, and set nextId to the reduce of Math.max over the
ids seeded with 0, plus one.  none models the effect aborting on a thrown
exception (JSON.parse on malformed text, or reduce on a non-array). -/
def hydrate (slot : Stored) (s : HomeState) : Option HomeState :=
  match jsonParseGetItem slot with
  | none => none
  | some v =>
    match jsOrEmptyList v with
    | none => none
    | some savedTasks =>
      let maxId := reduceMaxId savedTasks
      some { s with tasks := savedTasks, nextId := maxId + 1 }

/-- localStorage.setItem(key, JSON.stringify(ts)): the slot now holds the
serialization of ts, which JSON.parse reads back as the same array. -/
def persistTasks (ts : List Task) : Stored := .wellFormed (.taskArr ts)

/-- The page session: the component state together with the storage slot. -/
structure Sys where
  home : HomeState
  slot : Stored
deriving DecidableEq

/-- The addTask click handler: build newTaskObj from the counter and the
pending input text, append it, clear the input, increment the counter, and
write the updated collection to the slot. -/
def addTask (sys : Sys) : Sys :=
  let s := sys.home
  let newTaskObj : Task := { id := s.nextId, title := s.newTask, description := "" }
  let updatedTasks := s.tasks ++ [newTaskObj]
  { home := { tasks := updatedTasks, newTask := "", nextId := s.nextId + 1 },
    slot := persistTasks updatedTasks }

/-- The input control's onChange handler: setNewTask(text). -/
def setNewTask (title : String) (sys : Sys) : Sys :=
  { sys with home := { sys.home with newTask := title } }

/-- The handleDelete handler: keep the tasks whose id differs (!==) from
the given id, and write the result to the slot.  The counter is not
touched. -/
def handleDelete (id : Nat) (sys : Sys) : Sys :=
  let newTasks := sys.home.tasks.filter (fun task => task.id != id)
  { home := { sys.home with tasks := newTasks }, slot := persistTasks newTasks }

/-- Adding a task with a given title: type the title into the input
(onChange), then click Add.  This is the addTask(title) operation of the
specification. -/
def submitAdd (title : String) (sys : Sys) : Sys :=
  addTask (setNewTask title sys)

/-- A finite sequence of addTask calls with the given titles. -/
def runAdds (sys : Sys) : List String → Sys
  | [] => sys
  | t :: ts => runAdds (submitAdd t sys) ts

/-- The states a page session can reach: a state produced by the hydration
effect from the initial useState values and some slot contents, followed by
any sequence of add and delete operations (typing into the input is part of
submitAdd). -/
inductive Reachable : Sys → Prop where
  | hydrated (slot : Stored) (s : HomeState) :
      hydrate slot initState = some s → Reachable { home := s, slot := slot }
  | add (sys : Sys) (title : String) :
      Reachable sys → Reachable (submitAdd title sys)
  | del (sys : Sys) (id : Nat) :
      Reachable sys → Reachable (handleDelete id sys)

example : hydrate Stored.absent initState = some initState := rfl

example : hydrate (persistTasks [⟨5, "x", ""⟩]) initState =
    some { tasks := [⟨5, "x", ""⟩], newTask := "", nextId := 6 } := rfl

example : hydrate Stored.malformed initState = none := rfl

example : (submitAdd "a" { home := initState, slot := Stored.absent }).home =
    { tasks := [⟨1, "a", ""⟩], newTask := "", nextId := 2 } := rfl

example :
    (handleDelete 1 ⟨⟨[⟨1, "a", ""⟩, ⟨2, "b", ""⟩], "", 3⟩, Stored.absent⟩).home.tasks =
    [⟨2, "b", ""⟩] := rfl

lemma foldlMaxId_init_le (l : List Task) (a : Nat) :
    a ≤ l.foldl (fun mx task => Nat.max mx task.id) a := by
  induction l generalizing a with
  | nil => exact Nat.le_refl a
  | cons t ts ih => exact Nat.le_trans (Nat.le_max_left a t.id) (ih (Nat.max a t.id))

lemma le_foldlMaxId_of_mem {t : Task} {l : List Task} (h : t ∈ l) (a : Nat) :
    t.id ≤ l.foldl (fun mx task => Nat.max mx task.id) a := by
  induction l generalizing a with
  | nil => cases h
  | cons u ts ih =>
    rcases List.mem_cons.mp h with rfl | hmem
    · exact Nat.le_trans (Nat.le_max_right a t.id) (foldlMaxId_init_le ts (Nat.max a t.id))
    · exact ih hmem (Nat.max a u.id)

lemma foldlMaxId_cases (l : List Task) (a : Nat) :
    l.foldl (fun mx task => Nat.max mx task.id) a = a ∨
    ∃ t ∈ l, l.foldl (fun mx task => Nat.max mx task.id) a = t.id := by
  induction l generalizing a with
  | nil => exact Or.inl rfl
  | cons t ts ih =>
    rcases ih (Nat.max a t.id) with h | ⟨u, hu, he⟩
    · rcases Nat.le_total t.id a with hle | hle
      · left
        simpa [Nat.max_eq_left hle] using h
      · right
        exact ⟨t, List.mem_cons_self t ts, by simpa [Nat.max_eq_right hle] using h⟩
    · exact Or.inr ⟨u, List.mem_cons_of_mem t hu, he⟩

lemma le_reduceMaxId_of_mem {t : Task} {l : List Task} (h : t ∈ l) :
    t.id ≤ reduceMaxId l :=
  le_foldlMaxId_of_mem h 0

lemma reduceMaxId_attained {l : List Task} (h : l ≠ []) :
    ∃ t ∈ l, reduceMaxId l = t.id := by
  rcases foldlMaxId_cases l 0 with h0 | hex
  · cases l with
    | nil => exact absurd rfl h
    | cons t ts =>
      refine ⟨t, List.mem_cons_self t ts, ?_⟩
      have ht : t.id ≤ reduceMaxId (t :: ts) := le_reduceMaxId_of_mem (List.mem_cons_self t ts)
      have : reduceMaxId (t :: ts) = 0 := h0
      omega
  · exact hex

/-- C1 (counterexample): hydrating from malformed persisted text does not
absorb the read failure: JSON.parse throws and the effect aborts with no
resulting state, whereas an absent slot does produce a state, so the two
are observably different. -/
theorem hydrate_malformed_differs_from_absent :
    hydrate Stored.malformed initState = none ∧
    hydrate Stored.absent initState = some initState ∧
    hydrate Stored.malformed initState ≠ hydrate Stored.absent initState :=
  ⟨rfl, rfl, fun h => Option.noConfusion h⟩

/-- C1 (amended): for every component state, hydrating from a malformed
persisted value makes JSON.parse throw, so the hydration effect aborts and
performs no state update: no state is produced, and the in-memory state
keeps its initial value, the empty collection. -/
theorem hydrate_malformed_aborts (s : HomeState) :
    hydrate Stored.malformed s = none ∧ initState.tasks = [] :=
  ⟨rfl, rfl⟩

/-- C3: addTask with any title on any state appends exactly one task (id =
current counter, the given title, empty description) at the end, keeping
every previous task in place and in order; it increments the counter,
clears the pending input, and writes the full updated collection to the
slot. -/
theorem addTask_spec (sys : Sys) (title : String) :
    (submitAdd title sys).home.tasks =
      sys.home.tasks ++ [{ id := sys.home.nextId, title := title, description := "" }] ∧
    (submitAdd title sys).home.nextId = sys.home.nextId + 1 ∧
    (submitAdd title sys).home.newTask = "" ∧
    (submitAdd title sys).slot =
      persistTasks
        (sys.home.tasks ++ [{ id := sys.home.nextId, title := title, description := "" }]) :=
  ⟨rfl, rfl, rfl, rfl⟩

/-- C6: hydrating from an absent slot, or from a slot holding the
serialization of the empty collection, yields the empty collection and a
next-id counter equal to 1. -/
theorem hydrate_empty_or_absent (s : HomeState) :
    hydrate Stored.absent s = some { s with tasks := [], nextId := 1 } ∧
    hydrate (persistTasks []) s = some { s with tasks := [], nextId := 1 } :=
  ⟨rfl, rfl⟩

/-- C7: every mutation (addTask, whether reached by a submit with a typed
title or directly, and handleDelete) leaves the slot holding exactly the
serialization of the new in-memory collection. -/
theorem mutations_persist_full_collection (sys : Sys) (title : String) (id : Nat) :
    (addTask sys).slot = persistTasks (addTask sys).home.tasks ∧
    (submitAdd title sys).slot = persistTasks (submitAdd title sys).home.tasks ∧
    (handleDelete id sys).slot = persistTasks (handleDelete id sys).home.tasks :=
  ⟨rfl, rfl, rfl⟩

/-- C8: a submit with the empty title is not rejected: it appends a task
with blank title, increments the counter and persists, and it satisfies
exactly the same state equation as a submit with any other title. -/
theorem addTask_empty_title_permitted (sys : Sys) :
    (submitAdd "" sys).home.tasks =
      sys.home.tasks ++ [{ id := sys.home.nextId, title := "", description := "" }] ∧
    (submitAdd "" sys).home.nextId = sys.home.nextId + 1 ∧
    (submitAdd "" sys).slot = persistTasks ((submitAdd "" sys).home.tasks) ∧
    (∀ title : String,
      submitAdd title sys =
        { home :=
            { tasks :=
                sys.home.tasks ++ [{ id := sys.home.nextId, title := title, description := "" }],
              newTask := "",
              nextId := sys.home.nextId + 1 },
          slot :=
            persistTasks
              (sys.home.tasks ++
                [{ id := sys.home.nextId, title := title, description := "" }]) }) :=
  ⟨rfl, rfl, rfl, fun _ => rfl⟩

/-- C10: a slot whose text is valid JSON for a falsy value (null, false, 0,
or the empty string) hydrates exactly like an absent slot: the parsed value
is replaced by the empty array, giving the empty collection and counter 1. -/
theorem hydrate_falsy_like_absent (s : HomeState) :
    hydrate (Stored.wellFormed JsValue.null) s = some { s with tasks := [], nextId := 1 } ∧
    hydrate (Stored.wellFormed (JsValue.bool false)) s =
      some { s with tasks := [], nextId := 1 } ∧
    hydrate (Stored.wellFormed (JsValue.num 0)) s = some { s with tasks := [], nextId := 1 } ∧
    hydrate (Stored.wellFormed (JsValue.str "")) s = some { s with tasks := [], nextId := 1 } ∧
    hydrate Stored.absent s = some { s with tasks := [], nextId := 1 } :=
  ⟨rfl, rfl, rfl, rfl, rfl⟩

/-- C2: persisting any collection and re-hydrating yields the identical
collection (every id, title, description preserved, in the same order) and
a counter one more than the maximal id (1 for the empty collection, since
the reduce is seeded with 0); the next add then uses that counter as the
id of the appended task. -/
theorem persist_hydrate_roundtrip (ts : List Task) (s : HomeState) :
    ∃ s', hydrate (persistTasks ts) s = some s' ∧
      s'.tasks = ts ∧
      (∀ t ∈ ts, t.id < s'.nextId) ∧
      (ts = [] → s'.nextId = 1) ∧
      (ts ≠ [] → ∃ t ∈ ts, s'.nextId = t.id + 1) ∧
      (∀ title : String,
        (submitAdd title { home := s', slot := persistTasks ts }).home.tasks =
          ts ++ [{ id := s'.nextId, title := title, description := "" }]) := by
  refine ⟨{ s with tasks := ts, nextId := reduceMaxId ts + 1 }, rfl, rfl, ?_, ?_, ?_, ?_⟩
  · intro t ht
    exact Nat.lt_succ_of_le (le_reduceMaxId_of_mem ht)
  · intro h
    subst h
    rfl
  · intro h
    rcases reduceMaxId_attained h with ⟨t, htmem, he⟩
    exact ⟨t, htmem, by simp [he]⟩
  · intro title
    rfl

/-- Witness for C2 at the persisted singleton with id 5: hydration yields
the same singleton, sets the counter to 6, and the next add appends a task
with id 6. -/
theorem persist_hydrate_roundtrip_witness :
    ∃ s', hydrate (persistTasks [⟨5, "x", ""⟩]) initState = some s' ∧
      s'.tasks = [⟨5, "x", ""⟩] ∧ s'.nextId = 6 ∧
      (submitAdd "y" { home := s', slot := persistTasks [⟨5, "x", ""⟩] }).home.tasks.map
        Task.id = [5, 6] := by
  obtain ⟨s', h1, h2, h3, h4, h5, h6⟩ :=
    persist_hydrate_roundtrip [⟨5, "x", ""⟩] initState
  obtain ⟨t, htmem, he⟩ := h5 (by simp)
  have ht : t = (⟨5, "x", ""⟩ : Task) := List.mem_singleton.mp htmem
  subst ht
  have hn : s'.nextId = 6 := he
  refine ⟨s', h1, h2, hn, ?_⟩
  rw [h6 "y"]
  simp [hn]

/-- C4: deleting an id that occurs in a collection with unique ids removes
exactly the one matching element and keeps the rest in their relative
order; deleting an id that occurs nowhere leaves the collection unchanged;
in both cases the resulting collection is written to the slot. -/
theorem handleDelete_spec (id : Nat) (sys : Sys) :
    ((sys.home.tasks.map Task.id).Nodup → id ∈ sys.home.tasks.map Task.id →
      ∃ l1 t0 l2, sys.home.tasks = l1 ++ t0 :: l2 ∧ t0.id = id ∧
        (handleDelete id sys).home.tasks = l1 ++ l2) ∧
    (id ∉ sys.home.tasks.map Task.id →
      (handleDelete id sys).home.tasks = sys.home.tasks) ∧
    (handleDelete id sys).slot = persistTasks ((handleDelete id sys).home.tasks) := by
  have hdel : (handleDelete id sys).home.tasks
      = sys.home.tasks.filter (fun task => task.id != id) := rfl
  refine ⟨?_, ?_, rfl⟩
  · intro hnd hid
    rcases List.mem_map.mp hid with ⟨t0, ht0, hide⟩
    rcases List.append_of_mem ht0 with ⟨l1, l2, hsplit⟩
    refine ⟨l1, t0, l2, hsplit, hide, ?_⟩
    have hids : sys.home.tasks.map Task.id = l1.map Task.id ++ t0.id :: l2.map Task.id := by
      rw [hsplit]
      simp
    have hnd' : (t0.id :: (l1.map Task.id ++ l2.map Task.id)).Nodup := by
      rw [hids] at hnd
      exact List.nodup_middle.mp hnd
    have hnotmem : t0.id ∉ l1.map Task.id ++ l2.map Task.id := (List.nodup_cons.mp hnd').1
    have h1 : ∀ u ∈ l1, u.id ≠ id := by
      intro u hu hctr
      exact hnotmem (List.mem_append_left _ (List.mem_map.mpr ⟨u, hu, by rw [hctr, hide]⟩))
    have h2 : ∀ u ∈ l2, u.id ≠ id := by
      intro u hu hctr
      exact hnotmem (List.mem_append_right _ (List.mem_map.mpr ⟨u, hu, by rw [hctr, hide]⟩))
    have hf1 : l1.filter (fun task => task.id != id) = l1 :=
      List.filter_eq_self.mpr (fun u hu => by simpa using h1 u hu)
    have hf2 : l2.filter (fun task => task.id != id) = l2 :=
      List.filter_eq_self.mpr (fun u hu => by simpa using h2 u hu)
    rw [hdel, hsplit, List.filter_append, hf1, List.filter_cons]
    simp [hide, hf2]
  · intro hid
    rw [hdel]
    refine List.filter_eq_self.mpr (fun u hu => ?_)
    have : u.id ≠ id := fun hctr => hid (List.mem_map.mpr ⟨u, hu, hctr⟩)
    simpa using this

/-- Witness for C4 on the collection with ids 1 and 2, deleting id 1: the
element with id 1 is removed and the one with id 2 stays. -/
theorem handleDelete_spec_witness :
    ∃ l1 t0 l2,
      (⟨⟨[⟨1, "a", ""⟩, ⟨2, "b", ""⟩], "", 3⟩, Stored.absent⟩ : Sys).home.tasks
        = l1 ++ t0 :: l2 ∧ t0.id = 1 ∧
      (handleDelete 1 ⟨⟨[⟨1, "a", ""⟩, ⟨2, "b", ""⟩], "", 3⟩, Stored.absent⟩).home.tasks
        = l1 ++ l2 :=
  (handleDelete_spec 1 ⟨⟨[⟨1, "a", ""⟩, ⟨2, "b", ""⟩], "", 3⟩, Stored.absent⟩).1
    (by decide) (by decide)

lemma runAdds_home (titles : List String) : ∀ sys : Sys,
    (runAdds sys titles).home.tasks.map Task.id
      = sys.home.tasks.map Task.id ++ List.range' sys.home.nextId titles.length ∧
    (runAdds sys titles).home.nextId = sys.home.nextId + titles.length ∧
    (runAdds sys titles).home.tasks.length = sys.home.tasks.length + titles.length := by
  induction titles with
  | nil =>
    intro sys
    simp [runAdds]
  | cons t ts ih =>
    intro sys
    obtain ⟨h1, h2, h3⟩ := ih (submitAdd t sys)
    have e0 : runAdds sys (t :: ts) = runAdds (submitAdd t sys) ts := rfl
    have e1 : (submitAdd t sys).home.tasks.map Task.id
        = sys.home.tasks.map Task.id ++ [sys.home.nextId] := by
      simp [submitAdd, addTask, setNewTask]
    have e2 : (submitAdd t sys).home.nextId = sys.home.nextId + 1 := rfl
    have e3 : (submitAdd t sys).home.tasks.length = sys.home.tasks.length + 1 := by
      simp [submitAdd, addTask, setNewTask]
    refine ⟨?_, ?_, ?_⟩
    · rw [e0, h1, e1, e2, List.length_cons, List.range'_succ, List.append_assoc]
      rfl
    · rw [e0, h2, e2, List.length_cons]
      omega
    · rw [e0, h3, e3, List.length_cons]
      omega

/-- C5: starting from the empty initial state, any sequence of addTask
calls with distinct titles produces a collection whose length equals the
number of calls and whose ids are exactly 1, 2, ..., n in order — strictly
increasing starting at 1. -/
theorem runAdds_length_and_ids (titles : List String) (_hnd : titles.Nodup) :
    (runAdds { home := initState, slot := Stored.absent } titles).home.tasks.length
      = titles.length ∧
    (runAdds { home := initState, slot := Stored.absent } titles).home.tasks.map Task.id
      = List.range' 1 titles.length ∧
    List.Pairwise (· < ·)
      ((runAdds { home := initState, slot := Stored.absent } titles).home.tasks.map
        Task.id) := by
  obtain ⟨h1, h2, h3⟩ := runAdds_home titles { home := initState, slot := Stored.absent }
  refine ⟨by simpa [initState] using h3, by simpa [initState] using h1, ?_⟩
  have : (runAdds { home := initState, slot := Stored.absent } titles).home.tasks.map Task.id
      = List.range' 1 titles.length := by simpa [initState] using h1
  rw [this]
  exact List.pairwise_lt_range' 1 titles.length

/-- Witness for C5 with the two distinct titles "a" and "b": two tasks,
ids 1 and 2 in order. -/
theorem runAdds_length_and_ids_witness :
    (runAdds { home := initState, slot := Stored.absent } ["a", "b"]).home.tasks.length = 2 ∧
    (runAdds { home := initState, slot := Stored.absent } ["a", "b"]).home.tasks.map Task.id
      = List.range' 1 2 ∧
    List.Pairwise (· < ·)
      ((runAdds { home := initState, slot := Stored.absent } ["a", "b"]).home.tasks.map
        Task.id) := by
  simpa using runAdds_length_and_ids ["a", "b"] (by decide)

/-- C9: in every reachable session state the next-id counter strictly
exceeds every id present in the collection, and handleDelete never changes
the counter; hence the id of a deleted task is never assigned again by a
later addTask. -/
theorem reachable_counter_exceeds_ids :
    (∀ sys : Sys, Reachable sys → ∀ t ∈ sys.home.tasks, t.id < sys.home.nextId) ∧
    (∀ (id : Nat) (sys : Sys), (handleDelete id sys).home.nextId = sys.home.nextId) := by
  constructor
  · intro sys h
    induction h with
    | hydrated slot s heq =>
      intro t ht
      unfold hydrate at heq
      cases hp : jsonParseGetItem slot with
      | none =>
        rw [hp] at heq
        cases heq
      | some v =>
        rw [hp] at heq
        dsimp only at heq
        cases hq : jsOrEmptyList v with
        | none =>
          rw [hq] at heq
          cases heq
        | some savedTasks =>
          rw [hq] at heq
          dsimp only at heq
          have hs : { initState with
              tasks := savedTasks, nextId := reduceMaxId savedTasks + 1 } = s :=
            Option.some.inj heq
          subst hs
          exact Nat.lt_succ_of_le (le_reduceMaxId_of_mem ht)
    | add sys1 title hr ih =>
      intro t ht
      have hts : (submitAdd title sys1).home.tasks
          = sys1.home.tasks ++
            [{ id := sys1.home.nextId, title := title, description := "" }] := rfl
      rw [hts] at ht
      rcases List.mem_append.mp ht with hmem | hmem
      · exact Nat.lt_trans (ih t hmem) (Nat.lt_succ_self _)
      · have heqt : t = { id := sys1.home.nextId, title := title, description := "" } :=
          List.mem_singleton.mp hmem
        subst heqt
        exact Nat.lt_succ_self _
    | del sys1 id hr ih =>
      intro t ht
      have hts : (handleDelete id sys1).home.tasks
          = sys1.home.tasks.filter (fun task => task.id != id) := rfl
      rw [hts] at ht
      exact ih t (List.mem_of_mem_filter ht)
  · intro id sys
    rfl

/-- Witness for C9: the state reached by hydrating an absent slot and
adding one task is reachable, and there the single task's id 1 is below
the counter 2. -/
theorem reachable_counter_exceeds_ids_witness :
    (⟨1, "a", ""⟩ : Task).id <
      (submitAdd "a" { home := initState, slot := Stored.absent }).home.nextId :=
  reachable_counter_exceeds_ids.1
    (submitAdd "a" { home := initState, slot := Stored.absent })
    (Reachable.add { home := initState, slot := Stored.absent } "a"
      (Reachable.hydrated Stored.absent initState rfl))
    ⟨1, "a", ""⟩ (by decide)

end TaskBoard
